import Mathlib

/-!
Verification development for `TarDirectory.py`, a Flame MediaHub context-menu
plugin that submits Backburner `cmdjob` shell commands tarring selected
directories.

The Python source is shallowly embedded below:
* pure string helpers (`rreplace`, `get_dest_path`, `os.path.basename`,
  `os.path.dirname`, `str.rstrip('/')`, `str.format` on `{NAME}` fields)
  become pure Lean functions on `String` / `List Char`;
* the effectful parts of `tardir_go` (the `ask_yesno` prompts, `os.path.isdir`
  / `os.path.isfile` queries, and `subprocess.Popen` + `wait`) are modelled by
  an explicit environment of response functions (`Env`, and the `prompt`
  parameter exactly as in the source, where `prompt` is a function argument),
  and each run additionally produces a trace of `Event`s recording, in order,
  every prompt shown, destination path computed, command line formatted, and
  external process executed.
-/

set_option maxRecDepth 4000

namespace TarDirectory

/-- Python `s.rstrip('/')`: remove every trailing `'/'` character
(`path = curitem.path.rstrip('/')`, TarDirectory.py line 89). -/
def stripSlashes (s : String) : String :=
  ⟨(s.data.reverse.dropWhile (fun c => c = '/')).reverse⟩

/-- Split a character list at the rightmost occurrence of `old`:
`splitRight old s = some (l, r)` when `s = l ++ old ++ r` at the rightmost
occurrence of `old`, and `none` when `old` does not occur in `s`.  This is the
searching core shared by Python `s.rfind(old)` (which returns a nonnegative
index exactly when the result is `some`) and by `s.rsplit(old, count)`. -/
def splitRight (old : List Char) : List Char → Option (List Char × List Char)
  | [] => none
  | c :: cs =>
    match splitRight old cs with
    | some (l, r) => some (c :: l, r)
    | none => if old.isPrefixOf (c :: cs) then some ([], (c :: cs).drop old.length) else none

/-- Python `s.rsplit(old, count)`: split `s` from the right at most `count`
times on separator `old`. -/
def rsplit (old : List Char) : Nat → List Char → List (List Char)
  | 0, s => [s]
  | Nat.succ n, s =>
    match splitRight old s with
    | none => [s]
    | some (l, r) => rsplit old n l ++ [r]

/-- `rreplace` from TarDirectory.py lines 66-68:
`return new.join(s.rsplit(old, count))` — replace in `s` the rightmost
`count` occurrences of `old` with `new`. -/
def rreplace (s old new : String) (count : Nat) : String :=
  ⟨List.intercalate new.data (rsplit old.data count s.data)⟩

/-- `get_dest_path` from TarDirectory.py lines 70-75:
`found = destpath.rfind('_xyz/'); if found >= 0: destpath =
rreplace(destpath, '_xyz/', '_dcdm/', 1)`.  Python `rfind` returns a
nonnegative index exactly when `'_xyz/'` occurs in the string, i.e. exactly
when `splitRight` returns `some`. -/
def get_dest_path (srcpath : String) : String :=
  if (splitRight "_xyz/".data srcpath.data).isSome then
    rreplace srcpath "_xyz/" "_dcdm/" 1
  else srcpath

/-- Python `os.path.basename(p)` (posixpath): everything after the last
`'/'`, the whole string when there is no `'/'`. -/
def pyBasename (p : String) : String :=
  match splitRight ['/'] p.data with
  | none => p
  | some (_, r) => ⟨r⟩

/-- Python `os.path.dirname(p)` (posixpath): `head = p[:p.rfind('/') + 1]`;
when `head` is nonempty and not all slashes its trailing slashes are removed.
When there is no `'/'` the result is the empty string. -/
def pyDirname (p : String) : String :=
  match splitRight ['/'] p.data with
  | none => ""
  | some (l, _) =>
    let head := l ++ ['/']
    if head.all (fun c => c = '/') then ⟨head⟩
    else ⟨(head.reverse.dropWhile (fun c => c = '/')).reverse⟩

/-- Dictionary lookup used by the embedded `str.format`: first binding of the
key in the association list (all keys of `vars` in the source are distinct, so
this agrees with the Python `dict`). -/
def lookupVar (vars : List (String × String)) (k : String) : String :=
  match vars.find? (fun kv => kv.1 == k) with
  | some kv => kv.2
  | none => ""

/-- Core of Python `template.format(**vars)` restricted to the `{NAME}`
replacement fields actually present in the source's constant templates:
characters are copied literally, and a `{NAME}` field is replaced by the value
of `NAME` in `vars`, spliced verbatim (the substituted value is never itself
rescanned, as in Python).  The first argument accumulates the characters of a
field name currently being read (in reverse), `none` while outside a field. -/
def formatAux (vars : List (String × String)) : Option (List Char) → List Char → List Char
  | none, [] => []
  | some _, [] => []
  | none, c :: cs =>
      if c = '{' then formatAux vars (some []) cs
      else c :: formatAux vars none cs
  | some acc, c :: cs =>
      if c = '}' then (lookupVar vars ⟨acc.reverse⟩).data ++ formatAux vars none cs
      else formatAux vars (some (c :: acc)) cs

/-- Python `s.format(**vars)` for the constant templates of the source. -/
def pyFormat (vars : List (String × String)) (s : String) : String :=
  ⟨formatAux vars none s.data⟩

/-- The `config` dict of TarDirectory.py lines 20-25. -/
structure Config where
  BBMANAGER : String
  BBGROUP : String
  PRIORITY : String
  CMDJOB : String
deriving DecidableEq

/-- `config = dict(BBMANAGER="manager", BBGROUP="TARNODES", PRIORITY="30",
CMDJOB="/opt/Autodesk/backburner/cmdjob")`. -/
def config : Config :=
  ⟨"manager", "TARNODES", "30", "/opt/Autodesk/backburner/cmdjob"⟩

/-- The per-item `vars` dict of TarDirectory.py lines 98-102:
`vars = config.copy()` extended with `TARNAME` (the destination path),
`BASENAME`, `JOBNAME` and `PARENTDIR`, all computed from the
trailing-slash-stripped `path`. -/
def mkVars (cfg : Config) (path : String) : List (String × String) :=
  [("BBMANAGER", cfg.BBMANAGER),
   ("BBGROUP", cfg.BBGROUP),
   ("PRIORITY", cfg.PRIORITY),
   ("CMDJOB", cfg.CMDJOB),
   ("TARNAME", get_dest_path path),
   ("BASENAME", pyBasename path),
   ("JOBNAME", pyBasename path ++ " DCDM"),
   ("PARENTDIR", pyDirname path)]

/-- The constant `cmdline` template of TarDirectory.py lines 104-113 (the two
adjacent Python string literals of the shell text concatenate to a single
element, with two spaces around the `;`). -/
def cmdTemplate : List String :=
  ["{CMDJOB}",
   "-manager:{BBMANAGER}",
   "-group:{BBGROUP}",
   "-priority:{PRIORITY}",
   "-jobName", "{JOBNAME}",
   "-userRights",
   "-description", "TAR + List file",
   "sh", "-c",
   "/usr/bin/tar -cf {TARNAME}.tar -C {PARENTDIR} {BASENAME} ;  tar -tvf {TARNAME}.tar | sort > {TARNAME}.tar.list"]

/-- `cmdline = [x.format(**vars) for x in cmdline]` (line 114), for the item
whose stripped path is `path`. -/
def mkCmdline (cfg : Config) (path : String) : List String :=
  cmdTemplate.map (pyFormat (mkVars cfg path))

/-- A selection item: the host application's selection objects expose a
`path` attribute (`curitem.path`). -/
structure Item where
  path : String
deriving DecidableEq

/-- The effectful environment of a run: responses of `os.path.isdir`,
`os.path.isfile`, and the return code `subprocess.Popen(cmdline).wait()`
yields for a submitted command line. -/
structure Env where
  isDir : String → Bool
  isFile : String → Bool
  run : List String → Int

/-- Observable events of a run of `tardir_go`, in order: a yes/cancel prompt
shown (with its message, title and the answer received), a destination path
computed by `get_dest_path`, a command line formatted, an external process
executed with its return code. -/
inductive Event where
  | prompt (msg title : String) (answer : Bool)
  | computeDest (path dest : String)
  | formatCmd (cmdline : List String)
  | exec (cmdline : List String) (rc : Int)
deriving DecidableEq

/-- `Event.prompt` recogniser. -/
def isPromptEvt : Event → Bool
  | Event.prompt _ _ _ => true
  | _ => false

/-- `Event.computeDest` recogniser. -/
def isComputeDestEvt : Event → Bool
  | Event.computeDest _ _ => true
  | _ => false

/-- `Event.formatCmd` recogniser. -/
def isFormatCmdEvt : Event → Bool
  | Event.formatCmd _ => true
  | _ => false

/-- `Event.exec` recogniser. -/
def isExecEvt : Event → Bool
  | Event.exec _ _ => true
  | _ => false

/-- The value `tardir_go` returns: `cancelled` for Python `return` (= `None`)
after a declined initial prompt, `cmdline c` for the test-mode early
`return cmdline`, `codes rcs` for the final `return returncodes`. -/
inductive TarResult where
  | cancelled
  | cmdline (c : List String)
  | codes (rcs : List Int)
deriving DecidableEq

/-- Message of the per-item overwrite prompt (line 92):
`"Overwrite " + archive_path + " ?"`. -/
def overwriteMsg (archivePath : String) : String :=
  "Overwrite " ++ archivePath ++ " ?"

/-- Title of the per-item overwrite prompt (line 92):
`archive_path + " exists"`. -/
def overwriteTitle (archivePath : String) : String :=
  archivePath ++ " exists"

/-- The `for curitem in sel:` loop of `tardir_go` (lines 86-124).  Returns the
test-mode early-returned command line (if any), the accumulated list of
return codes, and the trace of events of the loop. -/
def tarLoop (env : Env) (prompt : String → String → Bool) (testMode : Bool)
    (cfg : Config) : List Item → Option (List String) × List Int × List Event
  | [] => (none, [], [])
  | it :: rest =>
    if env.isDir it.path then
      let path := stripSlashes it.path
      let archivePath := path ++ ".tar"
      let ans := prompt (overwriteMsg archivePath) (overwriteTitle archivePath)
      let checkEvts : List Event :=
        if env.isFile archivePath then
          [Event.prompt (overwriteMsg archivePath) (overwriteTitle archivePath) ans]
        else []
      if env.isFile archivePath && !ans then
        let res := tarLoop env prompt testMode cfg rest
        (res.1, res.2.1, checkEvts ++ res.2.2)
      else
        let destpath := get_dest_path path
        let cmdline := mkCmdline cfg path
        let itemEvts := checkEvts ++
          [Event.computeDest path destpath, Event.formatCmd cmdline]
        if testMode then
          (some cmdline, [], itemEvts)
        else
          let rc := env.run cmdline
          let res := tarLoop env prompt testMode cfg rest
          (res.1, rc :: res.2.1, itemEvts ++ Event.exec cmdline rc :: res.2.2)
    else
      tarLoop env prompt testMode cfg rest

/-- Message of the initial confirmation prompt (line 81):
`'{} folder{} selected for TAR; OK?'.format(len(sel), plural)` with
`plural = "s" if len(sel) > 1 else ""`. -/
def confirmMsg (sel : List Item) : String :=
  toString sel.length ++ " folder" ++ (if sel.length > 1 then "s" else "") ++
    " selected for TAR; OK?"

/-- Title of the initial confirmation prompt (line 82):
`'tarring {} folder{}'.format(len(sel), plural)`. -/
def confirmTitle (sel : List Item) : String :=
  "tarring " ++ toString sel.length ++ " folder" ++
    (if sel.length > 1 then "s" else "")

/-- `tardir_go(sel, prompt, test_mode)` (TarDirectory.py lines 77-124),
returning its result together with the trace of observable events. -/
def tardir_go (env : Env) (prompt : String → String → Bool) (testMode : Bool)
    (cfg : Config) (sel : List Item) : TarResult × List Event :=
  let ans := prompt (confirmMsg sel) (confirmTitle sel)
  if ans then
    let res := tarLoop env prompt testMode cfg sel
    (match res.1 with
     | some c => TarResult.cmdline c
     | none => TarResult.codes res.2.1,
     Event.prompt (confirmMsg sel) (confirmTitle sel) true :: res.2.2)
  else
    (TarResult.cancelled, [Event.prompt (confirmMsg sel) (confirmTitle sel) false])

/-- `menu_enabled(sel)` (TarDirectory.py lines 57-64): `is_enabled` starts
`False` and is set to `True` by any selected item whose path is a directory;
it is never reset. -/
def menu_enabled (env : Env) (sel : List Item) : Bool :=
  sel.foldl (fun acc it => if env.isDir it.path then true else acc) false

/-- A selected item is processed by the loop body of `tardir_go` exactly when
its path is a directory and it is not skipped by a declined overwrite prompt
on an existing `path + '.tar'` file. -/
def keepItem (env : Env) (prompt : String → String → Bool) (it : Item) : Bool :=
  env.isDir it.path &&
    !(env.isFile (stripSlashes it.path ++ ".tar") &&
      !prompt (overwriteMsg (stripSlashes it.path ++ ".tar"))
              (overwriteTitle (stripSlashes it.path ++ ".tar")))

/-- The selected items actually processed by a (non-test) run of `tardir_go`,
in selection order. -/
def processedItems (env : Env) (prompt : String → String → Bool)
    (sel : List Item) : List Item :=
  sel.filter (keepItem env prompt)

/-- Specification of the events a single selected item contributes to a
non-test run: nothing for a non-directory; the conditional overwrite prompt,
then — unless skipped — computing the destination path, formatting the
command line, and executing it, in that order. -/
def itemTrace (env : Env) (prompt : String → String → Bool) (cfg : Config)
    (it : Item) : List Event :=
  if env.isDir it.path then
    let path := stripSlashes it.path
    let archivePath := path ++ ".tar"
    let ans := prompt (overwriteMsg archivePath) (overwriteTitle archivePath)
    let checkEvts : List Event :=
      if env.isFile archivePath then
        [Event.prompt (overwriteMsg archivePath) (overwriteTitle archivePath) ans]
      else []
    if env.isFile archivePath && !ans then checkEvts
    else
      checkEvts ++
        [Event.computeDest path (get_dest_path path),
         Event.formatCmd (mkCmdline cfg path),
         Event.exec (mkCmdline cfg path) (env.run (mkCmdline cfg path))]
  else []

/-- Environment in which every path is a directory and no file exists. -/
def envAll : Env := ⟨fun _ => true, fun _ => false, fun _ => 0⟩

/-- Environment in which every path is a directory and every file exists. -/
def envAllTar : Env := ⟨fun _ => true, fun _ => true, fun _ => 0⟩

/-- Environment in which no path is a directory and no file exists. -/
def envNone : Env := ⟨fun _ => false, fun _ => false, fun _ => 0⟩

/-- A user who answers yes to every prompt. -/
def promptYes : String → String → Bool := fun _ _ => true

/-- A user who cancels every prompt. -/
def promptNo : String → String → Bool := fun _ _ => false

/-! ### Properties of `splitRight`, `rreplace` and `get_dest_path` -/

/-- If `splitRight` finds an occurrence, it decomposes the list around it. -/
theorem splitRight_eq_append (old : List Char) (s : List Char) :
    ∀ {l r : List Char}, splitRight old s = some (l, r) → s = l ++ old ++ r := by
  induction s with
  | nil => intro l r h; simp [splitRight] at h
  | cons c cs ih =>
    intro l r h
    simp only [splitRight] at h
    split at h
    · rename_i l' r' heq
      obtain ⟨rfl, rfl⟩ := Prod.mk.injEq .. ▸ Option.some.inj h
      simp [ih heq]
    · rename_i heq
      split at h
      · rename_i hpre
        obtain ⟨rfl, rfl⟩ := Prod.mk.injEq .. ▸ Option.some.inj h
        obtain ⟨t, ht⟩ := List.isPrefixOf_iff_prefix.mp hpre
        rw [← ht, List.nil_append, List.drop_left]
      · exact absurd h (by simp)

/-- `splitRight` succeeds exactly when the separator occurs in the list. -/
theorem splitRight_isSome_iff (old : List Char) (hne : old ≠ []) (s : List Char) :
    (splitRight old s).isSome = true ↔ old <:+: s := by
  induction s with
  | nil => simp [splitRight, hne]
  | cons c cs ih =>
    rw [List.infix_cons_iff]
    simp only [splitRight]
    cases hsc : splitRight old cs with
    | some lr =>
      obtain ⟨l, r⟩ := lr
      have hcs : old <:+: cs := ih.mp (by rw [hsc]; rfl)
      simp [hcs]
    | none =>
      rw [hsc] at ih
      simp only [Option.isSome_none, Bool.false_eq_true, false_iff] at ih
      by_cases hpre : old.isPrefixOf (c :: cs) = true
      · simp [hpre, List.isPrefixOf_iff_prefix.mp hpre]
      · have hnp : ¬ old <+: (c :: cs) := fun hp => hpre ( List.isPrefixOf_iff_prefix.mpr hp)
        simp [hpre, hnp, ih]

/-- The part to the right of the occurrence found by `splitRight` contains no
further occurrence: `splitRight` splits at the rightmost occurrence. -/
theorem splitRight_not_infix_right (old : List Char) (hne : old ≠ []) (s : List Char) :
    ∀ {l r : List Char}, splitRight old s = some (l, r) → ¬ (old <:+: r) := by
  induction s with
  | nil => intro l r h; simp [splitRight] at h
  | cons c cs ih =>
    intro l r h
    simp only [splitRight] at h
    split at h
    · rename_i l' r' heq
      obtain ⟨rfl, rfl⟩ := Prod.mk.injEq .. ▸ Option.some.inj h
      exact ih heq
    · rename_i heq
      split at h
      · rename_i hpre
        obtain ⟨rfl, rfl⟩ := Prod.mk.injEq .. ▸ Option.some.inj h
        intro hinf
        cases old with
        | nil => exact hne rfl
        | cons o os =>
          rw [List.length_cons, List.drop_succ_cons] at hinf
          have hcs : (o :: os) <:+: cs :=
            hinf.trans (List.drop_suffix os.length cs).isInfix
          have := (splitRight_isSome_iff (o :: os) hne cs).mpr hcs
          rw [heq] at this
          simp at this
      · exact absurd h (by simp)

/-- When `'_xyz/'` does not occur, `get_dest_path` is the identity. -/
theorem get_dest_path_of_none (s : String)
    (h : splitRight "_xyz/".data s.data = none) : get_dest_path s = s := by
  simp [get_dest_path, h]

/-- When `'_xyz/'` occurs, `get_dest_path` replaces the rightmost occurrence
with `'_dcdm/'`. -/
theorem get_dest_path_of_some (s : String) (l r : List Char)
    (h : splitRight "_xyz/".data s.data = some (l, r)) :
    (get_dest_path s).data = l ++ "_dcdm/".data ++ r := by
  simp [get_dest_path, h, rreplace, rsplit, List.intercalate]

/-- C1: `get_dest_path` redirects the output location according to the
`_xyz` → `_dcdm` naming convention: a path containing an `_xyz` directory
component (an occurrence of the substring `"_xyz/"`) is returned with the
rightmost such occurrence rewritten to `"_dcdm/"`, and a path containing no
such component is returned unchanged. -/
theorem C1_get_dest_path_rewrite (s : String) :
    (¬ ("_xyz/".data <:+: s.data) → get_dest_path s = s) ∧
    (("_xyz/".data <:+: s.data) →
      ∃ a b : List Char,
        s.data = a ++ "_xyz/".data ++ b ∧ ¬ ("_xyz/".data <:+: b) ∧
        (get_dest_path s).data = a ++ "_dcdm/".data ++ b) := by
  constructor
  · intro h
    apply get_dest_path_of_none
    cases hsc : splitRight "_xyz/".data s.data with
    | none => rfl
    | some lr =>
      exact absurd ((splitRight_isSome_iff "_xyz/".data (by decide) s.data).mp
        (by rw [hsc]; rfl)) h
  · intro h
    have hs := (splitRight_isSome_iff "_xyz/".data (by decide) s.data).mpr h
    obtain ⟨⟨l, r⟩, heq⟩ := Option.isSome_iff_exists.mp hs
    exact ⟨l, r, splitRight_eq_append _ _ heq,
      splitRight_not_infix_right _ (by decide) _ heq,
      get_dest_path_of_some s l r heq⟩

/-- Witness for C1 at the concrete paths of `test_tar`: `"/tmp/foo"` (no
`_xyz` component, unchanged) and `"/tmp/foo_xyz/sub"` (rewritten). -/
theorem C1_get_dest_path_rewrite_witness :
    get_dest_path "/tmp/foo" = "/tmp/foo" ∧
    (∃ a b : List Char,
      "/tmp/foo_xyz/sub".data = a ++ "_xyz/".data ++ b ∧ ¬ ("_xyz/".data <:+: b) ∧
      (get_dest_path "/tmp/foo_xyz/sub").data = a ++ "_dcdm/".data ++ b) :=
  ⟨(C1_get_dest_path_rewrite "/tmp/foo").1 (by decide),
   (C1_get_dest_path_rewrite "/tmp/foo_xyz/sub").2 (by decide)⟩

/-! ### Properties of the embedded `str.format` and the command template -/

/-- Formatting the empty template yields the empty result. -/
theorem formatAux_nil (vars : List (String × String)) : formatAux vars none [] = [] := rfl

/-- A literal run of characters (no `'{'`) is copied verbatim. -/
theorem formatAux_lit (vars : List (String × String)) (m : List Char) :
    ∀ (l : List Char), (∀ c ∈ l, c ≠ '{') →
      formatAux vars none (l ++ m) = l ++ formatAux vars none m := by
  intro l
  induction l with
  | nil => intro _; rfl
  | cons c l ih =>
    intro h
    have hc : c ≠ '{' := h c (List.mem_cons_self c l)
    simp only [List.cons_append, formatAux, if_neg hc, List.append_eq]
    rw [ih (fun d hd => h d (List.mem_cons_of_mem c hd))]

/-- A template made only of literal characters is returned unchanged. -/
theorem formatAux_lit_all (vars : List (String × String)) :
    ∀ (l : List Char), (∀ c ∈ l, c ≠ '{') → formatAux vars none l = l := by
  intro l
  induction l with
  | nil => intro _; rfl
  | cons c l ih =>
    intro h
    have hc : c ≠ '{' := h c (List.mem_cons_self c l)
    simp only [formatAux, if_neg hc]
    rw [ih (fun d hd => h d (List.mem_cons_of_mem c hd))]

/-- Reading a field name: the characters up to the closing `'}'` select the
variable, whose value is spliced verbatim. -/
theorem formatAux_name (vars : List (String × String)) (m : List Char) :
    ∀ (nm acc : List Char), (∀ c ∈ nm, c ≠ '}') →
      formatAux vars (some acc) (nm ++ '}' :: m) =
        (lookupVar vars ⟨acc.reverse ++ nm⟩).data ++ formatAux vars none m := by
  intro nm
  induction nm with
  | nil =>
    intro acc _
    simp [formatAux]
  | cons d nm ih =>
    intro acc h
    have hd : d ≠ '}' := h d (List.mem_cons_self d nm)
    simp only [List.cons_append, formatAux, if_neg hd, List.append_eq]
    rw [ih (d :: acc) (fun e he => h e (List.mem_cons_of_mem d he))]
    have hl : (d :: acc).reverse ++ nm = acc.reverse ++ d :: nm := by simp
    rw [hl]

/-- A complete `{NAME}` replacement field. -/
theorem formatAux_var (vars : List (String × String)) (nm : String) (m : List Char)
    (h : ∀ c ∈ nm.data, c ≠ '}') :
    formatAux vars none ('{' :: (nm.data ++ '}' :: m)) =
      (lookupVar vars nm).data ++ formatAux vars none m := by
  simp only [formatAux, if_pos rfl]
  rw [formatAux_name vars m nm.data [] h]
  rfl

/-- `vars['CMDJOB']`. -/
theorem lookup_CMDJOB (cfg : Config) (p : String) :
    lookupVar (mkVars cfg p) "CMDJOB" = cfg.CMDJOB := rfl

/-- `vars['BBMANAGER']`. -/
theorem lookup_BBMANAGER (cfg : Config) (p : String) :
    lookupVar (mkVars cfg p) "BBMANAGER" = cfg.BBMANAGER := rfl

/-- `vars['BBGROUP']`. -/
theorem lookup_BBGROUP (cfg : Config) (p : String) :
    lookupVar (mkVars cfg p) "BBGROUP" = cfg.BBGROUP := rfl

/-- `vars['PRIORITY']`. -/
theorem lookup_PRIORITY (cfg : Config) (p : String) :
    lookupVar (mkVars cfg p) "PRIORITY" = cfg.PRIORITY := rfl

/-- `vars['TARNAME']` is the destination path. -/
theorem lookup_TARNAME (cfg : Config) (p : String) :
    lookupVar (mkVars cfg p) "TARNAME" = get_dest_path p := rfl

/-- `vars['BASENAME']`. -/
theorem lookup_BASENAME (cfg : Config) (p : String) :
    lookupVar (mkVars cfg p) "BASENAME" = pyBasename p := rfl

/-- `vars['JOBNAME']` is the basename plus `' DCDM'`. -/
theorem lookup_JOBNAME (cfg : Config) (p : String) :
    lookupVar (mkVars cfg p) "JOBNAME" = pyBasename p ++ " DCDM" := rfl

/-- `vars['PARENTDIR']`. -/
theorem lookup_PARENTDIR (cfg : Config) (p : String) :
    lookupVar (mkVars cfg p) "PARENTDIR" = pyDirname p := rfl

/-- Rendering of the `'{CMDJOB}'` template element. -/
theorem pyFormat_cmdjob (cfg : Config) (p : String) :
    pyFormat (mkVars cfg p) "{CMDJOB}" = cfg.CMDJOB := by
  apply String.ext
  show formatAux (mkVars cfg p) none "{CMDJOB}".data = _
  rw [show "{CMDJOB}".data = '{' :: ("CMDJOB".data ++ '}' :: []) from rfl,
      formatAux_var _ "CMDJOB" _ (by decide), formatAux_nil, lookup_CMDJOB]
  simp

/-- Rendering of the `'-manager:{BBMANAGER}'` template element. -/
theorem pyFormat_manager (cfg : Config) (p : String) :
    pyFormat (mkVars cfg p) "-manager:{BBMANAGER}" = "-manager:" ++ cfg.BBMANAGER := by
  apply String.ext
  show formatAux (mkVars cfg p) none "-manager:{BBMANAGER}".data = _
  rw [show "-manager:{BBMANAGER}".data
        = "-manager:".data ++ ('{' :: ("BBMANAGER".data ++ '}' :: [])) from rfl,
      formatAux_lit _ _ "-manager:".data (by decide),
      formatAux_var _ "BBMANAGER" _ (by decide), formatAux_nil, lookup_BBMANAGER]
  simp [String.data_append]

/-- Rendering of the `'-group:{BBGROUP}'` template element. -/
theorem pyFormat_group (cfg : Config) (p : String) :
    pyFormat (mkVars cfg p) "-group:{BBGROUP}" = "-group:" ++ cfg.BBGROUP := by
  apply String.ext
  show formatAux (mkVars cfg p) none "-group:{BBGROUP}".data = _
  rw [show "-group:{BBGROUP}".data
        = "-group:".data ++ ('{' :: ("BBGROUP".data ++ '}' :: [])) from rfl,
      formatAux_lit _ _ "-group:".data (by decide),
      formatAux_var _ "BBGROUP" _ (by decide), formatAux_nil, lookup_BBGROUP]
  simp [String.data_append]

/-- Rendering of the `'-priority:{PRIORITY}'` template element. -/
theorem pyFormat_priority (cfg : Config) (p : String) :
    pyFormat (mkVars cfg p) "-priority:{PRIORITY}" = "-priority:" ++ cfg.PRIORITY := by
  apply String.ext
  show formatAux (mkVars cfg p) none "-priority:{PRIORITY}".data = _
  rw [show "-priority:{PRIORITY}".data
        = "-priority:".data ++ ('{' :: ("PRIORITY".data ++ '}' :: [])) from rfl,
      formatAux_lit _ _ "-priority:".data (by decide),
      formatAux_var _ "PRIORITY" _ (by decide), formatAux_nil, lookup_PRIORITY]
  simp [String.data_append]

/-- Rendering of the `'{JOBNAME}'` template element. -/
theorem pyFormat_jobname (cfg : Config) (p : String) :
    pyFormat (mkVars cfg p) "{JOBNAME}" = pyBasename p ++ " DCDM" := by
  apply String.ext
  show formatAux (mkVars cfg p) none "{JOBNAME}".data = _
  rw [show "{JOBNAME}".data = '{' :: ("JOBNAME".data ++ '}' :: []) from rfl,
      formatAux_var _ "JOBNAME" _ (by decide), formatAux_nil, lookup_JOBNAME]
  simp

/-- Rendering of the shell-text template element. -/
theorem pyFormat_shell (cfg : Config) (p : String) :
    pyFormat (mkVars cfg p)
      "/usr/bin/tar -cf {TARNAME}.tar -C {PARENTDIR} {BASENAME} ;  tar -tvf {TARNAME}.tar | sort > {TARNAME}.tar.list" =
    "/usr/bin/tar -cf " ++ get_dest_path p ++ ".tar -C " ++ pyDirname p ++ " " ++
      pyBasename p ++ " ;  tar -tvf " ++ get_dest_path p ++ ".tar | sort > " ++
      get_dest_path p ++ ".tar.list" := by
  have hdec : "/usr/bin/tar -cf {TARNAME}.tar -C {PARENTDIR} {BASENAME} ;  tar -tvf {TARNAME}.tar | sort > {TARNAME}.tar.list".data
      = "/usr/bin/tar -cf ".data ++ '{' :: ("TARNAME".data ++ '}' ::
        (".tar -C ".data ++ '{' :: ("PARENTDIR".data ++ '}' ::
        (" ".data ++ '{' :: ("BASENAME".data ++ '}' ::
        (" ;  tar -tvf ".data ++ '{' :: ("TARNAME".data ++ '}' ::
        (".tar | sort > ".data ++ '{' :: ("TARNAME".data ++ '}' ::
        ".tar.list".data))))))))) := by decide
  apply String.ext
  show formatAux (mkVars cfg p) none
    "/usr/bin/tar -cf {TARNAME}.tar -C {PARENTDIR} {BASENAME} ;  tar -tvf {TARNAME}.tar | sort > {TARNAME}.tar.list".data = _
  rw [hdec,
      formatAux_lit _ _ "/usr/bin/tar -cf ".data (by decide),
      formatAux_var _ "TARNAME" _ (by decide),
      formatAux_lit _ _ ".tar -C ".data (by decide),
      formatAux_var _ "PARENTDIR" _ (by decide),
      formatAux_lit _ _ " ".data (by decide),
      formatAux_var _ "BASENAME" _ (by decide),
      formatAux_lit _ _ " ;  tar -tvf ".data (by decide),
      formatAux_var _ "TARNAME" _ (by decide),
      formatAux_lit _ _ ".tar | sort > ".data (by decide),
      formatAux_var _ "TARNAME" _ (by decide),
      formatAux_lit_all _ ".tar.list".data (by decide),
      lookup_TARNAME, lookup_PARENTDIR, lookup_BASENAME]
  simp [String.data_append]

/-- The fully substituted command line submitted for an item whose stripped
path is `p`: the fixed constants of the template with the four path-derived
variables spliced in.  Shared helper for the claims about the command line. -/
theorem mkCmdline_eq (cfg : Config) (p : String) :
    mkCmdline cfg p =
      [cfg.CMDJOB,
       "-manager:" ++ cfg.BBMANAGER,
       "-group:" ++ cfg.BBGROUP,
       "-priority:" ++ cfg.PRIORITY,
       "-jobName", pyBasename p ++ " DCDM",
       "-userRights",
       "-description", "TAR + List file",
       "sh", "-c",
       "/usr/bin/tar -cf " ++ get_dest_path p ++ ".tar -C " ++ pyDirname p ++ " " ++
         pyBasename p ++ " ;  tar -tvf " ++ get_dest_path p ++ ".tar | sort > " ++
         get_dest_path p ++ ".tar.list"] := by
  simp only [mkCmdline, cmdTemplate, List.map_cons, List.map_nil,
    pyFormat_cmdjob, pyFormat_manager, pyFormat_group, pyFormat_priority,
    pyFormat_jobname, pyFormat_shell]
  rfl

/-! ### The run of `tardir_go`: loop structure and traces -/

/-- A non-test run of the item loop returns no early command line, one return
code per processed item (in order), and the concatenation of the per-item
event traces. -/
theorem tarLoop_run (env : Env) (prompt : String → String → Bool) (cfg : Config) :
    ∀ items : List Item,
      tarLoop env prompt false cfg items =
        (none,
         (processedItems env prompt items).map
           (fun it => env.run (mkCmdline cfg (stripSlashes it.path))),
         (items.map (itemTrace env prompt cfg)).flatten) := by
  intro items
  induction items with
  | nil => rfl
  | cons it rest ih =>
    by_cases hd : env.isDir it.path = true
    · by_cases hskip : (env.isFile (stripSlashes it.path ++ ".tar") &&
          !prompt (overwriteMsg (stripSlashes it.path ++ ".tar"))
                  (overwriteTitle (stripSlashes it.path ++ ".tar"))) = true
      · simp [tarLoop, hd, hskip, ih, processedItems, keepItem, itemTrace,
          List.filter_cons]
      · simp [tarLoop, hd, hskip, ih, processedItems, keepItem, itemTrace,
          List.filter_cons]
    · simp [tarLoop, hd, ih, processedItems, keepItem, itemTrace, List.filter_cons]

/-- A confirmed non-test run of `tardir_go`: the initial prompt event followed
by the per-item traces, and the return codes of the processed items. -/
theorem tardir_go_run (env : Env) (prompt : String → String → Bool) (cfg : Config)
    (sel : List Item) (h : prompt (confirmMsg sel) (confirmTitle sel) = true) :
    tardir_go env prompt false cfg sel =
      (TarResult.codes ((processedItems env prompt sel).map
         (fun it => env.run (mkCmdline cfg (stripSlashes it.path)))),
       Event.prompt (confirmMsg sel) (confirmTitle sel) true ::
         (sel.map (itemTrace env prompt cfg)).flatten) := by
  simp [tardir_go, h, tarLoop_run]

/-- The execution events a single item contributes: exactly one when the item
is processed, none otherwise. -/
theorem itemTrace_filter_exec (env : Env) (prompt : String → String → Bool)
    (cfg : Config) (it : Item) :
    (itemTrace env prompt cfg it).filter isExecEvt =
      (if keepItem env prompt it then
        [Event.exec (mkCmdline cfg (stripSlashes it.path))
           (env.run (mkCmdline cfg (stripSlashes it.path)))]
       else []) := by
  by_cases hd : env.isDir it.path = true
  · by_cases hf : env.isFile (stripSlashes it.path ++ ".tar") = true
    · by_cases ha : prompt (overwriteMsg (stripSlashes it.path ++ ".tar"))
          (overwriteTitle (stripSlashes it.path ++ ".tar")) = true
      · simp [itemTrace, keepItem, hd, hf, ha, isExecEvt, List.filter_cons]
      · simp [itemTrace, keepItem, hd, hf, ha, isExecEvt, List.filter_cons]
    · simp [itemTrace, keepItem, hd, hf, isExecEvt, List.filter_cons]
  · simp [itemTrace, keepItem, hd]

/-- Joining the per-item traces of a selection and keeping only execution
events yields exactly one execution per processed item, in order. -/
theorem trace_filter_exec (env : Env) (prompt : String → String → Bool) (cfg : Config) :
    ∀ sel : List Item,
      ((sel.map (itemTrace env prompt cfg)).flatten).filter isExecEvt =
        (processedItems env prompt sel).map
          (fun it => Event.exec (mkCmdline cfg (stripSlashes it.path))
            (env.run (mkCmdline cfg (stripSlashes it.path)))) := by
  intro sel
  induction sel with
  | nil => rfl
  | cons it rest ih =>
    by_cases hk : keepItem env prompt it = true
    · simp [List.filter_append, itemTrace_filter_exec, processedItems,
        List.filter_cons, hk, ih]
    · simp [List.filter_append, itemTrace_filter_exec, processedItems,
        List.filter_cons, hk, ih]

/-! ### Claims C2-C6 -/

/-- C2: for every configuration and (stripped) selected path, the submitted
command ends with `sh -c` running a shell text that archives the directory
(`tar -cf` of the path's basename, run from its parent directory via `-C`)
into the destination path's `.tar` file and then pipes `tar -tvf` of that
archive through `sort` into the `.tar.list` file next to the archive. -/
theorem C2_shell_command (cfg : Config) (p : String) :
    (mkCmdline cfg p).drop 9 =
      ["sh", "-c",
       "/usr/bin/tar -cf " ++ get_dest_path p ++ ".tar -C " ++ pyDirname p ++ " " ++
         pyBasename p ++ " ;  tar -tvf " ++ get_dest_path p ++ ".tar | sort > " ++
         get_dest_path p ++ ".tar.list"] := by
  rw [mkCmdline_eq]
  rfl

/-- C6: the submitted command line is the fixed template with only the
variables substituted: the `cmdjob` executable, manager, group, priority,
`-userRights` flag and description are constants from the configuration, and
only `TARNAME` (the destination path), `BASENAME`, `JOBNAME` (basename plus
`' DCDM'`) and `PARENTDIR` vary with the selected path. -/
theorem C6_fixed_template (cfg : Config) (p : String) :
    mkCmdline cfg p =
      [cfg.CMDJOB,
       "-manager:" ++ cfg.BBMANAGER,
       "-group:" ++ cfg.BBGROUP,
       "-priority:" ++ cfg.PRIORITY,
       "-jobName", pyBasename p ++ " DCDM",
       "-userRights",
       "-description", "TAR + List file",
       "sh", "-c",
       "/usr/bin/tar -cf " ++ get_dest_path p ++ ".tar -C " ++ pyDirname p ++ " " ++
         pyBasename p ++ " ;  tar -tvf " ++ get_dest_path p ++ ".tar | sort > " ++
         get_dest_path p ++ ".tar.list"] :=
  mkCmdline_eq cfg p

/-- C3 as stated is false: the confirmation prompt is shown once per
invocation, not once per selected item (two selected directories still
produce a single prompt event), and a selected item that is not a directory
is not processed by the compute → format → execute sequence at all. -/
theorem C3_not_per_item_counterexample :
    (([(⟨"/a"⟩ : Item), ⟨"/b"⟩] : List Item).length = 2 ∧
     (tardir_go envAll promptYes false config [⟨"/a"⟩, ⟨"/b"⟩]).2.countP isPromptEvt = 1) ∧
    ((tardir_go envNone promptYes false config [⟨"/c"⟩]).2.filter
        (fun e => isComputeDestEvt e || isFormatCmdEvt e || isExecEvt e) = []) := by
  decide

/-- C3 (amended): a non-test run of `tardir_go` confirms once per invocation;
then every selected item contributes, in selection order, its per-item linear
sequence of events — for a directory item, the conditional overwrite prompt
and then (unless skipped) compute destination path → format command → execute,
and no events for a non-directory item. -/
theorem C3_per_item_pipeline (env : Env) (prompt : String → String → Bool)
    (cfg : Config) (sel : List Item)
    (h : prompt (confirmMsg sel) (confirmTitle sel) = true) :
    (tardir_go env prompt false cfg sel).2 =
      Event.prompt (confirmMsg sel) (confirmTitle sel) true ::
        (sel.map (itemTrace env prompt cfg)).flatten := by
  rw [tardir_go_run env prompt cfg sel h]

/-- Witness for the amended C3 at a concrete single-directory selection. -/
theorem C3_per_item_pipeline_witness :
    (tardir_go envAll promptYes false config [⟨"/a"⟩]).2 =
      Event.prompt (confirmMsg [⟨"/a"⟩]) (confirmTitle [⟨"/a"⟩]) true ::
        (([⟨"/a"⟩] : List Item).map (itemTrace envAll promptYes config)).flatten :=
  C3_per_item_pipeline envAll promptYes config [⟨"/a"⟩] (by decide)

/-- C4: when the initial yes/cancel prompt returns false, `tardir_go` returns
the Python `None` (here `cancelled`) — no return-code list — and its trace
contains no command formatting and no external process execution. -/
theorem C4_cancel_no_action (env : Env) (prompt : String → String → Bool)
    (testMode : Bool) (cfg : Config) (sel : List Item)
    (h : prompt (confirmMsg sel) (confirmTitle sel) = false) :
    tardir_go env prompt testMode cfg sel =
      (TarResult.cancelled, [Event.prompt (confirmMsg sel) (confirmTitle sel) false]) ∧
    (tardir_go env prompt testMode cfg sel).2.filter isFormatCmdEvt = [] ∧
    (tardir_go env prompt testMode cfg sel).2.filter isExecEvt = [] := by
  have h1 : tardir_go env prompt testMode cfg sel =
      (TarResult.cancelled, [Event.prompt (confirmMsg sel) (confirmTitle sel) false]) := by
    simp [tardir_go, h]
  refine ⟨h1, ?_, ?_⟩ <;> rw [h1] <;> rfl

/-- Witness for C4: a cancelled run over one directory. -/
theorem C4_cancel_no_action_witness :
    tardir_go envAll promptNo false config [⟨"/a"⟩] =
      (TarResult.cancelled,
       [Event.prompt (confirmMsg [⟨"/a"⟩]) (confirmTitle [⟨"/a"⟩]) false]) ∧
    (tardir_go envAll promptNo false config [⟨"/a"⟩]).2.filter isFormatCmdEvt = [] ∧
    (tardir_go envAll promptNo false config [⟨"/a"⟩]).2.filter isExecEvt = [] :=
  C4_cancel_no_action envAll promptNo false config [⟨"/a"⟩] (by decide)

/-- C5: a confirmed non-test run submits exactly one external process per
processed directory item — the trace's execution events are exactly one per
processed item, each running that item's own command line — and the returned
list has exactly one return code per submitted job, in order. -/
theorem C5_one_job_per_directory (env : Env) (prompt : String → String → Bool)
    (cfg : Config) (sel : List Item)
    (h : prompt (confirmMsg sel) (confirmTitle sel) = true) :
    (tardir_go env prompt false cfg sel).1 =
      TarResult.codes ((processedItems env prompt sel).map
        (fun it => env.run (mkCmdline cfg (stripSlashes it.path)))) ∧
    (tardir_go env prompt false cfg sel).2.filter isExecEvt =
      (processedItems env prompt sel).map
        (fun it => Event.exec (mkCmdline cfg (stripSlashes it.path))
          (env.run (mkCmdline cfg (stripSlashes it.path)))) := by
  rw [tardir_go_run env prompt cfg sel h]
  refine ⟨rfl, ?_⟩
  simp [List.filter_cons, isPromptEvt, isExecEvt, trace_filter_exec env prompt cfg sel]

/-- Witness for C5: one directory selected, one job, one return code. -/
theorem C5_one_job_per_directory_witness :
    (tardir_go envAll promptYes false config [⟨"/a"⟩]).1 =
      TarResult.codes ((processedItems envAll promptYes [⟨"/a"⟩]).map
        (fun it => envAll.run (mkCmdline config (stripSlashes it.path)))) ∧
    (tardir_go envAll promptYes false config [⟨"/a"⟩]).2.filter isExecEvt =
      (processedItems envAll promptYes [⟨"/a"⟩]).map
        (fun it => Event.exec (mkCmdline config (stripSlashes it.path))
          (envAll.run (mkCmdline config (stripSlashes it.path)))) :=
  C5_one_job_per_directory envAll promptYes config [⟨"/a"⟩] (by decide)

/-! ### Claims C7-C10 -/

/-- C7: path rewriting and command templating are deterministic pure functions
of their inputs.  `get_dest_path` is a function of the path string alone, and
a run of `tardir_go` is determined entirely by the prompt answers, the
`isdir`/`isfile` responses and the process return codes — environments that
agree pointwise produce identical results and traces, with no dependence on
any hidden persistent state. -/
theorem C7_pure_deterministic (env1 env2 : Env) (prompt1 prompt2 : String → String → Bool)
    (testMode : Bool) (cfg : Config) (sel : List Item)
    (hp : ∀ m t, prompt1 m t = prompt2 m t)
    (hd : ∀ p, env1.isDir p = env2.isDir p)
    (hf : ∀ p, env1.isFile p = env2.isFile p)
    (hr : ∀ c, env1.run c = env2.run c) :
    (∀ s : String, get_dest_path s = get_dest_path s) ∧
    tardir_go env1 prompt1 testMode cfg sel = tardir_go env2 prompt2 testMode cfg sel := by
  have he : env1 = env2 := by
    cases env1
    cases env2
    simp only [Env.mk.injEq]
    exact ⟨funext hd, funext hf, funext hr⟩
  have hpp : prompt1 = prompt2 := funext fun m => funext fun t => hp m t
  exact ⟨fun _ => rfl, by rw [he, hpp]⟩

/-- Witness for C7: two identical test-mode runs coincide. -/
theorem C7_pure_deterministic_witness :
    tardir_go envAll promptYes true config [⟨"/a"⟩] =
      tardir_go envAll promptYes true config [⟨"/a"⟩] :=
  (C7_pure_deterministic envAll envAll promptYes promptYes true config [⟨"/a"⟩]
    (fun _ _ => rfl) (fun _ => rfl) (fun _ => rfl) (fun _ => rfl)).2

/-- Rewriting the rightmost `'_xyz/'` to `'_dcdm/'` lengthens the path by one
character. -/
theorem get_dest_path_length (s : String) (h : "_xyz/".data <:+: s.data) :
    (get_dest_path s).data.length = s.data.length + 1 := by
  have hs := (splitRight_isSome_iff "_xyz/".data (by decide) s.data).mpr h
  obtain ⟨⟨l, r⟩, heq⟩ := Option.isSome_iff_exists.mp hs
  have h1 := splitRight_eq_append "_xyz/".data s.data heq
  have h2 := get_dest_path_of_some s l r heq
  rw [h2, h1]
  have h5 : ("_xyz/".data).length = 5 := by decide
  have h6 : ("_dcdm/".data).length = 6 := by decide
  simp only [List.length_append, h5, h6]
  omega

/-- C8: in the per-item processing of `tardir_go` the overwrite confirmation
is driven by the existence of a file at the source path with `'.tar'`
appended — the path before the `_xyz` → `_dcdm` rewrite — and names that
pre-rewrite path in its message, whereas the submitted command writes the
archive at the destination path after the rewrite; when the stripped source
path contains `'_xyz/'`, the checked path and the written path differ. -/
theorem C8_overwrite_checks_prerewrite_path (env : Env) (prompt : String → String → Bool)
    (cfg : Config) (it : Item)
    (hdir : env.isDir it.path = true)
    (hconfirm : prompt (confirmMsg [it]) (confirmTitle [it]) = true) :
    (tardir_go env prompt false cfg [it]).2.filter isPromptEvt =
      Event.prompt (confirmMsg [it]) (confirmTitle [it]) true ::
        (if env.isFile (stripSlashes it.path ++ ".tar") then
           [Event.prompt (overwriteMsg (stripSlashes it.path ++ ".tar"))
              (overwriteTitle (stripSlashes it.path ++ ".tar"))
              (prompt (overwriteMsg (stripSlashes it.path ++ ".tar"))
                 (overwriteTitle (stripSlashes it.path ++ ".tar")))]
         else []) ∧
    ("_xyz/".data <:+: (stripSlashes it.path).data →
      get_dest_path (stripSlashes it.path) ++ ".tar" ≠ stripSlashes it.path ++ ".tar") := by
  constructor
  · rw [tardir_go_run env prompt cfg [it] hconfirm]
    by_cases hf : env.isFile (stripSlashes it.path ++ ".tar") = true
    · by_cases ha : prompt (overwriteMsg (stripSlashes it.path ++ ".tar"))
          (overwriteTitle (stripSlashes it.path ++ ".tar")) = true
      · simp [itemTrace, hdir, hf, ha, isPromptEvt, List.filter_cons]
      · simp [itemTrace, hdir, hf, ha, isPromptEvt, List.filter_cons]
    · simp [itemTrace, hdir, hf, isPromptEvt, List.filter_cons]
  · intro hinf heq
    have hlen := congrArg (fun s : String => s.data.length) heq
    simp only [String.data_append, List.length_append] at hlen
    have hgd := get_dest_path_length (stripSlashes it.path) hinf
    omega

/-- Witness for C8: a `_xyz` path with an existing `.tar` file; the checked
path `/tmp/foo_xyz/sub.tar` differs from the written `/tmp/foo_dcdm/sub.tar`. -/
theorem C8_overwrite_checks_prerewrite_path_witness :
    (tardir_go envAllTar promptYes false config [⟨"/tmp/foo_xyz/sub"⟩]).2.filter isPromptEvt =
      Event.prompt (confirmMsg [⟨"/tmp/foo_xyz/sub"⟩]) (confirmTitle [⟨"/tmp/foo_xyz/sub"⟩]) true ::
        (if envAllTar.isFile (stripSlashes "/tmp/foo_xyz/sub" ++ ".tar") then
           [Event.prompt (overwriteMsg (stripSlashes "/tmp/foo_xyz/sub" ++ ".tar"))
              (overwriteTitle (stripSlashes "/tmp/foo_xyz/sub" ++ ".tar"))
              (promptYes (overwriteMsg (stripSlashes "/tmp/foo_xyz/sub" ++ ".tar"))
                 (overwriteTitle (stripSlashes "/tmp/foo_xyz/sub" ++ ".tar")))]
         else []) ∧
    get_dest_path (stripSlashes "/tmp/foo_xyz/sub") ++ ".tar" ≠
      stripSlashes "/tmp/foo_xyz/sub" ++ ".tar" :=
  ⟨(C8_overwrite_checks_prerewrite_path envAllTar promptYes config
      ⟨"/tmp/foo_xyz/sub"⟩ rfl rfl).1,
   (C8_overwrite_checks_prerewrite_path envAllTar promptYes config
      ⟨"/tmp/foo_xyz/sub"⟩ rfl rfl).2 (by decide)⟩

/-- The accumulator form of `menu_enabled`'s loop. -/
theorem menu_enabled_foldl (env : Env) :
    ∀ (sel : List Item) (acc : Bool),
      sel.foldl (fun acc it => if env.isDir it.path then true else acc) acc = true ↔
        acc = true ∨ ∃ it ∈ sel, env.isDir it.path = true := by
  intro sel
  induction sel with
  | nil => intro acc; simp
  | cons it rest ih =>
    intro acc
    simp only [List.foldl_cons]
    rw [ih]
    by_cases hd : env.isDir it.path = true
    · simp [hd]
    · simp [hd]

/-- C9: the menu action is enabled exactly when at least one selected item's
path is a directory — an existential over the selection, so a mixed selection
with a single directory among non-directories enables the action. -/
theorem C9_menu_enabled_existential (env : Env) (sel : List Item) :
    menu_enabled env sel = true ↔ ∃ it ∈ sel, env.isDir it.path = true := by
  rw [menu_enabled, menu_enabled_foldl]
  simp

/-- Python `rstrip` removes all trailing occurrences: prepending any run of
slashes to the reversed tail changes nothing. -/
theorem dropWhile_replicate_slash (l : List Char) :
    ∀ n : Nat,
      (List.replicate n '/' ++ l).dropWhile (fun c => c = '/') =
        l.dropWhile (fun c => c = '/') := by
  intro n
  induction n with
  | zero => rfl
  | succ n ih => simp [List.replicate_succ, List.dropWhile_cons, ih]

/-- Appending trailing slashes is erased by `stripSlashes`. -/
theorem stripSlashes_append_slashes (p : String) (n : Nat) :
    stripSlashes (p ++ ⟨List.replicate n '/'⟩) = stripSlashes p := by
  simp [stripSlashes, String.data_append, List.reverse_append,
    List.reverse_replicate, dropWhile_replicate_slash]

/-- The initial prompt message only depends on the selection's length. -/
theorem confirmMsg_singleton (a b : Item) : confirmMsg [a] = confirmMsg [b] := rfl

/-- The initial prompt title only depends on the selection's length. -/
theorem confirmTitle_singleton (a b : Item) : confirmTitle [a] = confirmTitle [b] := rfl

/-- C10: a test-mode run of `tardir_go` produces the same command line whether
or not the selected path carries trailing `'/'` characters: the trailing
slashes are stripped before the destination path, archive name, basename and
parent directory are computed.  (The only hypothesis is that the filesystem
reports the slashed and unslashed spelling of the path as equally being a
directory, as a real filesystem does.) -/
theorem C10_trailing_slash_invariant (env : Env) (prompt : String → String → Bool)
    (cfg : Config) (p : String) (n : Nat)
    (hdir : env.isDir (p ++ ⟨List.replicate n '/'⟩) = env.isDir p) :
    tardir_go env prompt true cfg [⟨p ++ ⟨List.replicate n '/'⟩⟩] =
      tardir_go env prompt true cfg [⟨p⟩] := by
  have hm := confirmMsg_singleton (⟨p ++ ⟨List.replicate n '/'⟩⟩ : Item) ⟨p⟩
  have ht := confirmTitle_singleton (⟨p ++ ⟨List.replicate n '/'⟩⟩ : Item) ⟨p⟩
  simp only [tardir_go, tarLoop, hm, ht, hdir, stripSlashes_append_slashes]

/-- Witness for C10: `/tmp/foo/` and `/tmp/foo` produce the same run. -/
theorem C10_trailing_slash_invariant_witness :
    tardir_go envAll promptYes true config [⟨"/tmp/foo" ++ ⟨List.replicate 1 '/'⟩⟩] =
      tardir_go envAll promptYes true config [⟨"/tmp/foo"⟩] :=
  C10_trailing_slash_invariant envAll promptYes config "/tmp/foo" 1 rfl

/-! ### Fidelity of the embedding against the assertions of `test_tar`
(TarDirectory.py lines 143-201) -/

/-- `test_tar`: a test-mode run over `/tmp/foo` yields the command line the
test asserts (its element 0 and element 11). -/
theorem test_tar_foo :
    (tardir_go envAll promptYes true config [⟨"/tmp/foo"⟩]).1 =
    TarResult.cmdline
      ["/opt/Autodesk/backburner/cmdjob", "-manager:manager", "-group:TARNODES",
       "-priority:30", "-jobName", "foo DCDM", "-userRights", "-description",
       "TAR + List file", "sh", "-c",
       "/usr/bin/tar -cf /tmp/foo.tar -C /tmp foo ;  tar -tvf /tmp/foo.tar | sort > /tmp/foo.tar.list"] := by
  decide

/-- `test_tar`: the run over `/tmp/foo/` (trailing slash) yields the same
command line. -/
theorem test_tar_foo_slash :
    (tardir_go envAll promptYes true config [⟨"/tmp/foo/"⟩]).1 =
    (tardir_go envAll promptYes true config [⟨"/tmp/foo"⟩]).1 := by
  decide

/-- `test_tar`: the `_xyz` path gets its destination substituted. -/
theorem test_tar_xyz :
    mkCmdline config (stripSlashes "/tmp/foo_xyz/sub") =
    ["/opt/Autodesk/backburner/cmdjob", "-manager:manager", "-group:TARNODES",
     "-priority:30", "-jobName", "sub DCDM", "-userRights", "-description",
     "TAR + List file", "sh", "-c",
     "/usr/bin/tar -cf /tmp/foo_dcdm/sub.tar -C /tmp/foo_xyz sub ;  tar -tvf /tmp/foo_dcdm/sub.tar | sort > /tmp/foo_dcdm/sub.tar.list"] := by
  decide

/-- `test_tar`: the deeper `_xyz` path. -/
theorem test_tar_xyz_deeper :
    mkCmdline config "/tmp/foo_xyz/sub/sub2" =
    ["/opt/Autodesk/backburner/cmdjob", "-manager:manager", "-group:TARNODES",
     "-priority:30", "-jobName", "sub2 DCDM", "-userRights", "-description",
     "TAR + List file", "sh", "-c",
     "/usr/bin/tar -cf /tmp/foo_dcdm/sub/sub2.tar -C /tmp/foo_xyz/sub sub2 ;  tar -tvf /tmp/foo_dcdm/sub/sub2.tar | sort > /tmp/foo_dcdm/sub/sub2.tar.list"] := by
  decide

/-- `test_tar`: two selected directories yield two return codes. -/
theorem test_tar_two_paths :
    (tardir_go envAll promptYes false config [⟨"/tmp/foo"⟩, ⟨"/tmp/foo"⟩]).1 =
      TarResult.codes [0, 0] := by
  decide

end TarDirectory
